import Mathlib

/-!
Verification development for the kitopia HTTP toolkit runtime.

The definitions below are a shallow embedding of the runtime logic of the
repository's client (`packages/kitojs/src/client`, function
`createMethodCaller`, its helpers `hasFiles`, `resolveHeaders`,
`buildQueryString`, `parseResponse`, and the `client` factory's domain
normalization) and of the server-side context pipeline
(`packages/kitojs/src/server/kito`, `Kito.wrapHandler` and `Kito.use`).

JavaScript dynamic values are modelled by the inductive `JSValue`; records
are association lists in which a later write shadows an earlier one, and
reads are performed with `List.lookup` after writes have been prepended
(`recAssign`), which matches JavaScript record-spread / `Object.assign`
semantics key for key.  Asynchrony is dropped (the source awaits every
producer before using its result, so each pipeline is sequential), and the
platform `fetch` is modelled as an injected function returning
`Except String Response` (a `.error` models a rejected promise).
-/

namespace Kitopia

/-- A JavaScript runtime value as used by the client: primitives, arrays,
plain objects (association lists of fields), and `File`/`Blob` binary
attachments (opaque, identified by a tag). -/
inductive JSValue where
  | null
  | undefined
  | bool (b : Bool)
  | num (n : Int)
  | str (s : String)
  | arr (elems : List JSValue)
  | obj (fields : List (String × JSValue))
  | file (tag : Nat)
deriving Repr

/-- `true` when the value is `undefined`. -/
def JSValue.isUndef : JSValue → Bool
  | .undefined => true
  | _ => false

/-- `true` when the value is `null`. -/
def JSValue.isNull : JSValue → Bool
  | .null => true
  | _ => false

/-- JavaScript `String(v)` conversion (arrays join their elements with `,`,
rendering `null`/`undefined` elements as the empty string; plain objects
render as `[object Object]`; numbers are modelled as integers). -/
def jsString : JSValue → String
  | .null => "null"
  | .undefined => "undefined"
  | .bool b => if b then "true" else "false"
  | .num n => toString n
  | .str s => s
  | .arr es => String.intercalate "," (elemStrings es)
  | .obj _ => "[object Object]"
  | .file _ => "[object Blob]"
where
  /-- `Array.prototype.join` element rendering: `null` and `undefined`
  become the empty string. -/
  elemStrings : List JSValue → List String
  | [] => []
  | .null :: rest => "" :: elemStrings rest
  | .undefined :: rest => "" :: elemStrings rest
  | e :: rest => jsString e :: elemStrings rest

/-- Escape one character for a JSON string literal (common escapes only). -/
def jsonEscapeChar (c : Char) : String :=
  if c = '"' then "\\\""
  else if c = '\\' then "\\\\"
  else if c = '\n' then "\\n"
  else if c = '\r' then "\\r"
  else if c = '\t' then "\\t"
  else String.singleton c

/-- A JSON string literal for `s`. -/
def jsonQuote (s : String) : String :=
  "\"" ++ String.join (s.data.map jsonEscapeChar) ++ "\""

/-- JavaScript `JSON.stringify`: object fields with `undefined` values are
dropped, `undefined` array elements render as `null`, a `Blob` has no
enumerable fields and renders as the empty object.  (A top-level
`undefined` actually yields no string at all in JavaScript; it is rendered
as `"null"` here, and no caller in this development passes it.) -/
def jsonStringify : JSValue → String
  | .null => "null"
  | .undefined => "null"
  | .bool b => if b then "true" else "false"
  | .num n => toString n
  | .str s => jsonQuote s
  | .arr es => "[" ++ String.intercalate "," (elemJsons es) ++ "]"
  | .obj fs => "\x7b" ++ String.intercalate "," (fieldJsons fs) ++ "\x7d"
  | .file _ => "\x7b\x7d"
where
  /-- Array elements: `undefined` serializes as `null`. -/
  elemJsons : List JSValue → List String
  | [] => []
  | .undefined :: rest => "null" :: elemJsons rest
  | e :: rest => jsonStringify e :: elemJsons rest
  /-- Object fields: an `undefined` value drops the field. -/
  fieldJsons : List (String × JSValue) → List String
  | [] => []
  | (_, .undefined) :: rest => fieldJsons rest
  | (k, v) :: rest => (jsonQuote k ++ ":" ++ jsonStringify v) :: fieldJsons rest

example : jsString (.arr [.num 1, .null, .str "a"]) = "1,,a" := by rfl
example : jsonStringify (.obj [("a", .num 1), ("b", .undefined)]) = "\x7b\"a\":1\x7d" := by
  rfl

/-! ### Record-spread / `Object.assign` semantics

A JavaScript record is an association list; a write prepends, and a read
(`List.lookup`) therefore sees the most recent write for each key. -/

/-- `Object.assign(target, source)` / record spread `\x7b...a, ...b\x7d`:
every key of `b` (in order) is written over `a`, so a lookup sees `b`'s
last write for a key, falling back to `a`. -/
def recAssign {V : Type} (a b : List (String × V)) : List (String × V) :=
  b.foldl (fun acc p => p :: acc) a

/-- The value a JavaScript object literal with fields `l` holds at key `k`:
the last write wins. -/
def lastLookup {V : Type} (l : List (String × V)) (k : String) : Option V :=
  l.reverse.lookup k

/-! ### Domain normalization (`client` factory, part of `client()` in
`packages/kitojs/src/client`) -/

/-- `s.toUpperCase()` (over the character list, so that it evaluates by
kernel reduction). -/
def strToUpper (s : String) : String :=
  String.mk (s.data.map Char.toUpper)

/-- `s.split(";")[0]`: the prefix before the first `;` (the whole string
when there is none). -/
def mediaTypeOf (s : String) : String :=
  String.mk (s.data.takeWhile (fun c => c != ';'))

/-- `s.endsWith(pat)`. -/
def strEndsWith (s pat : String) : Bool :=
  pat.data.isSuffixOf s.data

/-- The UTF-8 bytes of a character. -/
def utf8Bytes (c : Char) : List Nat :=
  let n := c.toNat
  if n < 0x80 then [n]
  else if n < 0x800 then [0xC0 + n / 0x40, 0x80 + n % 0x40]
  else if n < 0x10000 then
    [0xE0 + n / 0x1000, 0x80 + (n / 0x40) % 0x40, 0x80 + n % 0x40]
  else
    [0xF0 + n / 0x40000, 0x80 + (n / 0x1000) % 0x40, 0x80 + (n / 0x40) % 0x40,
      0x80 + n % 0x40]

/-- `p` occurs as a contiguous run somewhere in the character list. -/
def infixAux (p : List Char) : List Char → Bool
  | [] => p.isPrefixOf []
  | c :: rest => p.isPrefixOf (c :: rest) || infixAux p rest

/-- JavaScript `s.includes(pat)`: `pat` occurs as a substring of `s`. -/
def strIncludes (s pat : String) : Bool :=
  infixAux pat.data s.data

/-- The recognized local hosts (`LOCAL_HOSTS` constant). -/
def LOCAL_HOSTS : List String := ["localhost", "127.0.0.1", "0.0.0.0"]

/-- `if (domain.endsWith("/")) domain = domain.slice(0, -1)`. -/
def stripOneTrailingSlash (s : String) : String :=
  if strEndsWith s "/" then s.dropRight 1 else s

/-- Domain normalization performed by the `client` factory: when the
domain contains no `://`, prepend `http://` if the string contains one of
`LOCAL_HOSTS` as a substring, else `https://`; then strip one trailing
slash. -/
def normalizeDomain (domain : String) : String :=
  let d :=
    if !strIncludes domain "://" then
      (if LOCAL_HOSTS.any (fun host => strIncludes domain host) then "http://"
       else "https://") ++ domain
    else domain
  stripOneTrailingSlash d

/-- The host portion of a scheme-less domain string: everything before the
first `/` and before the first `:`.  This definition follows the claim's
words ("the host is one of the recognized local hosts"), for comparison
with the source's substring test. -/
def specHostOf (d : String) : String :=
  String.mk ((d.data.takeWhile (fun c => c != '/')).takeWhile (fun c => c != ':'))

/-- Domain normalization as the claim words it: `http://` exactly when the
host (not the whole string) is one of the recognized local hosts.  Stated
from the claim for comparison with `normalizeDomain`. -/
def specClaimNormalize (domain : String) : String :=
  let d :=
    if !strIncludes domain "://" then
      (if LOCAL_HOSTS.contains (specHostOf domain) then "http://"
       else "https://") ++ domain
    else domain
  stripOneTrailingSlash d

/-! ### File detection and body encoding helpers
(`isFile`, `hasFiles`, the `FormData` construction inside
`createMethodCaller`) -/

/-- `value instanceof Blob`. -/
def isFile : JSValue → Bool
  | .file _ => true
  | _ => false

/-- `Array.isArray(value) && value.some(isFile)`. -/
def isFileArray : JSValue → Bool
  | .arr es => es.any isFile
  | _ => false

/-- `hasFiles(obj)`: iterate the object's enumerable keys (for an array,
its indices); a value that is a `Blob`, or an array with a `Blob` element,
means the body carries files.  Primitives and `Blob` bodies themselves
have no enumerable keys and yield `false`. -/
def hasFiles : JSValue → Bool
  | .obj fs => fs.any (fun kv => isFile kv.2 || isFileArray kv.2)
  | .arr es => es.any (fun v => isFile v || isFileArray v)
  | _ => false

/-- One entry of a `FormData`: a file or a string. -/
inductive FormEntry where
  | file (tag : Nat)
  | str (s : String)
deriving Repr

/-- `formData.append(key, value)`: a `Blob` is kept, any other value is
converted to a string. -/
def formEntryOf : JSValue → FormEntry
  | .file t => .file t
  | v => .str (jsString v)

/-- `Object.entries` of an array: index/value pairs. -/
def enumPairs (es : List JSValue) : List (String × JSValue) :=
  es.enum.map (fun p => (toString p.1, p.2))

/-- The `FormData` entries built from the entries of a file-bearing body:
an array value appends one entry per element under the same key, any
other value appends a single entry. -/
def formPairs : List (String × JSValue) → List (String × FormEntry)
  | [] => []
  | (k, .arr es) :: rest => es.map (fun e => (k, formEntryOf e)) ++ formPairs rest
  | (k, v) :: rest => (k, formEntryOf v) :: formPairs rest

/-- The `FormData` entries of a body (`Object.entries(body)` then
`formData.append` per entry/array element). -/
def formEntriesOf : JSValue → List (String × FormEntry)
  | .obj fs => formPairs fs
  | .arr es => formPairs (enumPairs es)
  | _ => []

/-! ### Query string (`buildQueryString`) -/

/-- JavaScript truthiness. -/
def jsTruthy : JSValue → Bool
  | .null => false
  | .undefined => false
  | .bool b => b
  | .num n => n != 0
  | .str s => s != ""
  | .arr _ => true
  | .obj _ => true
  | .file _ => true

/-- `Object.entries` of a query value (an object's fields; an array's
index/value pairs; primitives have none). -/
def entriesOf : JSValue → List (String × JSValue)
  | .obj fs => fs
  | .arr es => enumPairs es
  | _ => []

/-- The key/value pairs appended to the `URLSearchParams` by
`buildQueryString`: `undefined`/`null` values are skipped, an array value
appends the key once per element (stringified), any other object value is
JSON-encoded into a single pair, and a scalar is stringified. -/
def queryPairs : List (String × JSValue) → List (String × String)
  | [] => []
  | (_, .undefined) :: rest => queryPairs rest
  | (_, .null) :: rest => queryPairs rest
  | (k, .arr vs) :: rest => vs.map (fun v => (k, jsString v)) ++ queryPairs rest
  | (k, .obj fs) :: rest => (k, jsonStringify (.obj fs)) :: queryPairs rest
  | (k, .file t) :: rest => (k, jsonStringify (.file t)) :: queryPairs rest
  | (k, v) :: rest => (k, jsString v) :: queryPairs rest

/-- An uppercase hexadecimal digit. -/
def hexDigitChar (n : Nat) : Char :=
  if n < 10 then Char.ofNat (48 + n) else Char.ofNat (55 + n)

/-- Percent-encode one byte. -/
def percentByte (b : Nat) : String :=
  "%" ++ String.singleton (hexDigitChar (b / 16)) ++
    String.singleton (hexDigitChar (b % 16))

/-- One character under the `application/x-www-form-urlencoded` serializer
used by `URLSearchParams.toString`: alphanumerics and `*-._` are kept, a
space becomes `+`, anything else is percent-encoded byte-wise (UTF-8). -/
def formEncodeChar (c : Char) : String :=
  if c.isAlphanum || c = '*' || c = '-' || c = '.' || c = '_' then
    String.singleton c
  else if c = ' ' then "+"
  else String.join ((utf8Bytes c).map percentByte)

/-- `application/x-www-form-urlencoded` encoding of a string. -/
def formEncode (s : String) : String :=
  String.join (s.data.map formEncodeChar)

/-- `buildQueryString(query)`: serialize the appended pairs; an empty
serialization yields the empty string, otherwise a leading `?`. -/
def buildQueryString (entries : List (String × JSValue)) : String :=
  let pairs := queryPairs entries
  let str := String.intercalate "&"
    (pairs.map (fun kv => formEncode kv.1 ++ "=" ++ formEncode kv.2))
  if str = "" then "" else "?" ++ str

example :
    buildQueryString [("limit", .num 10), ("tags", .arr [.str "a", .str "b"]),
      ("skip", .null)] = "?limit=10&tags=a&tags=b" := by rfl

/-! ### Responses and parsing (`parseResponse`)

The platform `Response` object is an external collaborator; it is modelled
as carrying its status, headers, and the values its consuming methods
(`json()`, `arrayBuffer()`, `formData()`, `text()`) would resolve to.
Header names are stored lowercased, as the platform `Headers` object
normalizes them. -/

/-- The platform response, with the results of its body-consuming
methods. -/
structure Response where
  status : Nat
  headers : List (String × String)
  jsonContent : JSValue
  binaryContent : List Nat
  formContent : List (String × FormEntry)
  textContent : String
deriving Repr

/-- A parsed response datum (the client's `data`, when not `null`):
`DataVal.stream` is the raw response object returned unconsumed for
`text/event-stream`. -/
inductive DataVal where
  | jsval (v : JSValue)
  | binary (bytes : List Nat)
  | form (entries : List (String × FormEntry))
  | stream (r : Response)
deriving Repr

/-- `response.headers.get("content-type")?.split(";")[0]`. -/
def contentTypeOf (r : Response) : Option String :=
  (r.headers.lookup "content-type").map mediaTypeOf

/-- `response.json()` as client data: a JSON `null` body is the JavaScript
`null`. -/
def jsonToData : JSValue → Option DataVal
  | .null => none
  | v => some (.jsval v)

/-- The key/value map built from a `multipart/form-data` body
(`formData.forEach` writing `result[key] = value`, a later key winning). -/
def multipartMap (entries : List (String × FormEntry)) : List (String × FormEntry) :=
  recAssign [] entries

/-- `parseResponse(response)`: dispatch on the media type of the
`content-type` header; `application/json` decodes structurally,
`application/octet-stream` yields the raw bytes, `multipart/form-data`
yields a key/value map, `text/event-stream` yields the raw response
unconsumed, anything else (including a missing header) decodes as text. -/
def parseResponse (r : Response) : Option DataVal :=
  match contentTypeOf r with
  | some ct =>
      if ct = "application/json" then jsonToData r.jsonContent
      else if ct = "application/octet-stream" then some (.binary r.binaryContent)
      else if ct = "multipart/form-data" then some (.form (multipartMap r.formContent))
      else if ct = "text/event-stream" then some (.stream r)
      else some (.jsval (.str r.textContent))
  | none => some (.jsval (.str r.textContent))

/-! ### Request construction (`createMethodCaller`) -/

/-- A request body on the wire: a string (JSON or plain text) or a
`FormData` (the transport computes the multipart boundary itself). -/
inductive BodyInit where
  | str (s : String)
  | formData (entries : List (String × FormEntry))
deriving Repr

/-- The `RequestInit` fields this layer reads or writes.  (The config's
`fetchOptions`, typed to exclude `method`, `headers` and `body`, cannot
touch these fields and is not modelled.) -/
structure RequestInitR where
  method : String
  headers : List (String × String)
  body : Option BodyInit
deriving Repr

/-- A raw `RequestInit` override (per-call `options.fetch`, or the value
returned by the pre-request hook); a `none` field is an absent key. -/
structure FetchInit where
  method : Option String := none
  headers : Option (List (String × String)) := none
  body : Option BodyInit := none
deriving Repr

/-- Spread an override over an init (`\x7b...init, ...override\x7d`): a key
present in the override replaces the init's. -/
def applyFetchInit (i : RequestInitR) (o : FetchInit) : RequestInitR :=
  { method := o.method.getD i.method
    headers := o.headers.getD i.headers
    body := match o.body with
      | some b => some b
      | none => i.body }

/-- The config-level header source: a static map or a provider function
(the provider's `null` result falls back to the empty map via `|| \x7b\x7d`). -/
inductive HeaderSource where
  | static (hs : List (String × String))
  | provider (f : Unit → Option (List (String × String)))

/-- `resolveHeaders(config.headers)`. -/
def resolveHeaders : Option HeaderSource → List (String × String)
  | none => []
  | some (.static hs) => hs
  | some (.provider f) => (f ()).getD []

/-- The client configuration (`Client.Config`): optional fetch override,
header source, pre-request hook, post-response hook.  The post-response
hook's nullish result is `none` (parsing then proceeds). -/
structure ClientConfig where
  fetch : Option (String → RequestInitR → Except String Response) := none
  headers : Option HeaderSource := none
  onRequest : Option (String → RequestInitR → Option FetchInit) := none
  onResponse : Option (Response → Option DataVal) := none

/-- Per-call options (`\x7bquery?, headers?, fetch?\x7d`). -/
structure CallOptions where
  query : Option JSValue := none
  headers : Option (List (String × String)) := none
  fetch : Option FetchInit := none

/-- The first positional argument of a verb call: an arbitrary value (the
body position) or an options-shaped object.  An options-shaped object
passed in body position is represented as `.value` of the corresponding
`JSValue`; `.opts` is the view the `GET`/`HEAD` path reads. -/
inductive CallArg where
  | value (v : JSValue)
  | opts (o : CallOptions)

/-- Read the first argument as the options object
(`bodyOrOptions as typeof options`): a non-options value exposes no
`query`/`headers`/`fetch` fields. -/
def asOptionsArg : Option CallArg → Option CallOptions
  | some (.opts o) => some o
  | _ => none

/-- Read the first argument as the body.  (A caller passing an
options-shaped object as a body is represented as `.value`; the `.opts`
fallback is a modelling artifact and is never exercised.) -/
def asBodyArg : Option CallArg → Option JSValue
  | some (.value v) => some v
  | some (.opts _) => some (.obj [])
  | none => none

/-- `method === "get" || method === "head"`. -/
def isGetOrHead (method : String) : Bool :=
  method == "get" || method == "head"

/-- The options in effect: for `GET`/`HEAD` the first positional argument,
otherwise the second. -/
def actualCallOptions (method : String) (bodyOrOptions : Option CallArg)
    (options : Option CallOptions) : Option CallOptions :=
  if isGetOrHead method then asOptionsArg bodyOrOptions else options

/-- The body in effect: `undefined` for `GET`/`HEAD`, otherwise the first
positional argument. -/
def callBody (method : String) (bodyOrOptions : Option CallArg) : Option JSValue :=
  if isGetOrHead method then none else asBodyArg bodyOrOptions

/-- The query suffix appended to the URL: present only when
`actualOptions?.query` is truthy. -/
def querySuffix (actualOptions : Option CallOptions) : String :=
  match actualOptions.bind (fun o => o.query) with
  | some q => if jsTruthy q then buildQueryString (entriesOf q) else ""
  | none => ""

/-- The URL handed to the network-call primitive:
`domain + "/" + paths.join("/")` plus the query suffix. -/
def requestUrlOf (domain : String) (paths : List String)
    (actualOptions : Option CallOptions) : String :=
  domain ++ "/" ++ String.intercalate "/" paths ++ querySuffix actualOptions

/-- Merged request headers: config-level headers (static or resolved from
the provider) under the per-call headers, per-call winning on collision. -/
def requestHeadersOf (config : ClientConfig)
    (actualOptions : Option CallOptions) : List (String × String) :=
  recAssign (resolveHeaders config.headers)
    ((actualOptions.bind (fun o => o.headers)).getD [])

/-- The request init before body encoding: method uppercased, merged
headers, then the per-call raw fetch override spread over it. -/
def baseInitOf (config : ClientConfig) (method : String)
    (actualOptions : Option CallOptions) : RequestInitR :=
  let i0 : RequestInitR :=
    { method := strToUpper method
      headers := requestHeadersOf config actualOptions
      body := none }
  match actualOptions.bind (fun o => o.fetch) with
  | some o => applyFetchInit i0 o
  | none => i0

/-- `typeof body === "object"` (arrays, plain objects, `Blob`s and `null`
all satisfy it; `null` never reaches this test). -/
def typeofIsObject : JSValue → Bool
  | .obj _ => true
  | .arr _ => true
  | .file _ => true
  | .null => true
  | _ => false

/-- Body encoding: a file-bearing body becomes a `FormData` and the
headers are left untouched (the transport computes the multipart
boundary); any other object is JSON-encoded and `content-type` is
overwritten with `application/json`; anything else is stringified and
`content-type` is overwritten with `text/plain`. -/
def encodeBody (init : RequestInitR) (b : JSValue) : RequestInitR :=
  if hasFiles b then
    { init with body := some (.formData (formEntriesOf b)) }
  else if typeofIsObject b then
    { init with
        headers := recAssign init.headers [("content-type", "application/json")]
        body := some (.str (jsonStringify b)) }
  else
    { init with
        headers := recAssign init.headers [("content-type", "text/plain")]
        body := some (.str (jsString b)) }

/-- The init after the body-handling step, guarded by
`body !== undefined && body !== null && !isGetOrHead`. -/
def bodiedInitOf (config : ClientConfig) (method : String)
    (actualOptions : Option CallOptions) (bodyOpt : Option JSValue) : RequestInitR :=
  match bodyOpt with
  | none => baseInitOf config method actualOptions
  | some .null => baseInitOf config method actualOptions
  | some .undefined => baseInitOf config method actualOptions
  | some b =>
      if isGetOrHead method then baseInitOf config method actualOptions
      else encodeBody (baseInitOf config method actualOptions) b

/-- The init handed to the network-call primitive: the bodied init, with a
pre-request hook's non-void result spread over it. -/
def preparedInitOf (config : ClientConfig) (method : String)
    (actualOptions : Option CallOptions) (bodyOpt : Option JSValue)
    (path : String) : RequestInitR :=
  let i := bodiedInitOf config method actualOptions bodyOpt
  match config.onRequest with
  | some hook =>
      match hook path i with
      | some m => applyFetchInit i m
      | none => i
  | none => i

/-- The error payload of a non-success envelope
(`\x7bstatus, value: parsedBody\x7d`). -/
structure ErrorPayload where
  status : Nat
  value : Option DataVal
deriving Repr

/-- The result envelope `\x7bdata, error, status, response, headers\x7d`. -/
structure Envelope where
  data : Option DataVal
  error : Option ErrorPayload
  status : Nat
  response : Response
  headers : List (String × String)
deriving Repr

/-- Response classification: the post-response hook's non-nullish result
is used as the data, otherwise `parseResponse` runs; a status outside
`[200,299]` moves the parsed value into `error` and nulls `data`. -/
def makeEnvelope (config : ClientConfig) (response : Response) : Envelope :=
  let hookData : Option DataVal :=
    match config.onResponse with
    | some h => h response
    | none => none
  let data1 : Option DataVal :=
    match hookData with
    | some d => some d
    | none => parseResponse response
  if 300 ≤ response.status ∨ response.status < 200 then
    { data := none
      error := some { status := response.status, value := data1 }
      status := response.status
      response := response
      headers := response.headers }
  else
    { data := data1
      error := none
      status := response.status
      response := response
      headers := response.headers }

/-- `createMethodCaller(domain, config, paths, method)`: the verb caller.
It builds the path, splits the positional arguments by verb, builds the
URL and the request init, issues the request through the configured
network-call primitive (or the injected default), and classifies the
response.  A rejection of the primitive propagates as `.error`. -/
def createMethodCaller
    (defaultFetch : String → RequestInitR → Except String Response)
    (domain : String) (config : ClientConfig) (paths : List String)
    (method : String) :
    Option CallArg → Option CallOptions → Except String Envelope :=
  fun bodyOrOptions options =>
    let path := "/" ++ String.intercalate "/" paths
    let actualOptions := actualCallOptions method bodyOrOptions options
    let bodyOpt := callBody method bodyOrOptions
    let url := requestUrlOf domain paths actualOptions
    let init := preparedInitOf config method actualOptions bodyOpt path
    match (config.fetch.getD defaultFetch) url init with
    | .error e => .error e
    | .ok response => .ok (makeEnvelope config response)

/-! ### Server-side context pipeline (`Kito.wrapHandler`) and mount
(`Kito.use`)

A request context is an association list over an arbitrary value type
`V`; field writes prepend (`ctxSet`), and `Object.assign(ctx, obj)` writes
every key of `obj` in order (`ctxAssign`), so `List.lookup` reads the most
recent write.  A derive/resolve function receives the context and returns
`some` field list when its result is a non-null object (which is then
merged), or `none` when its result is not an object (which the source
skips). -/

/-- A request context over value type `V`. -/
abbrev Ctx (V : Type) := List (String × V)

/-- `ctx[k] = v`. -/
def ctxSet {V : Type} (c : Ctx V) (k : String) (v : V) : Ctx V :=
  (k, v) :: c

/-- `Object.assign(ctx, kvs)`. -/
def ctxAssign {V : Type} (c : Ctx V) (kvs : List (String × V)) : Ctx V :=
  kvs.foldl (fun acc p => p :: acc) c

/-- One derive/resolve stage: invoke each function in registration order
on the context built so far, merging a structured result immediately so
the next function sees it. -/
def runMergeStage {V : Type} (fns : List (Ctx V → Option (List (String × V))))
    (c : Ctx V) : Ctx V :=
  fns.foldl
    (fun ctx f =>
      match f ctx with
      | some out => ctxAssign ctx out
      | none => ctx)
    c

/-- The context composition performed by the wrapped handler
(`Kito.wrapHandler`): attach the store, copy the decorators on, run every
derive function in registration order, then every resolve function in
registration order. -/
def wrapHandlerContext {V : Type} (store : V) (decorators : List (String × V))
    (deriveFns resolveFns : List (Ctx V → Option (List (String × V))))
    (ctx0 : Ctx V) : Ctx V :=
  runMergeStage resolveFns
    (runMergeStage deriveFns
      (ctxAssign (ctxSet ctx0 "store" store) decorators))

/-- The handler's return value, as the wrapped handler serializes it:
`undefined` writes nothing (the handler already responded), a non-null
object is written as JSON, anything else is coerced to a string. -/
inductive SerializedResult where
  | nothing
  | json (v : JSValue)
  | text (s : String)
deriving Repr

/-- The serialization step of the wrapped handler. -/
def serializeResult : Option JSValue → SerializedResult
  | none => .nothing
  | some .null => .text (jsString .null)
  | some (.obj fs) => .json (.obj fs)
  | some (.arr es) => .json (.arr es)
  | some (.file t) => .json (.file t)
  | some v => .text (jsString v)

/-- The per-instance runtime state a `Kito` unit accumulates at setup
time: the singleton store and the ordered derive/resolve function lists. -/
structure KitoRuntime (V : Type) where
  singletonStore : List (String × V)
  deriveFunctions : List (Ctx V → Option (List (String × V)))
  resolveFunctions : List (Ctx V → Option (List (String × V)))

/-- `Kito.use(plugin)`: `Object.assign` the plugin's store onto the
host's, and append the plugin's derive and resolve functions after the
host's. -/
def KitoRuntime.use {V : Type} (host plugin : KitoRuntime V) : KitoRuntime V :=
  { singletonStore := ctxAssign host.singletonStore plugin.singletonStore
    deriveFunctions := host.deriveFunctions ++ plugin.deriveFunctions
    resolveFunctions := host.resolveFunctions ++ plugin.resolveFunctions }

/-! ### Sample data for concrete evaluations -/

/-- A default network primitive whose promise always rejects. -/
def failFetch : String → RequestInitR → Except String Response :=
  fun _ _ => .error "ECONNREFUSED"

/-- A 200 JSON response. -/
def sampleJsonResponse : Response :=
  { status := 200
    headers := [("content-type", "application/json")]
    jsonContent := .obj [("ok", .bool true)]
    binaryContent := []
    formContent := []
    textContent := "" }

/-- A client whose transport delivers `sampleJsonResponse`. -/
def cfgSampleJson : ClientConfig :=
  { fetch := some (fun _ _ => .ok sampleJsonResponse) }

/-- A 200 response whose JSON body is the literal `null`. -/
def nullJsonResponse : Response :=
  { status := 200
    headers := [("content-type", "application/json")]
    jsonContent := .null
    binaryContent := []
    formContent := []
    textContent := "" }

/-- A client whose transport delivers `nullJsonResponse`. -/
def cfgNullJson : ClientConfig :=
  { fetch := some (fun _ _ => .ok nullJsonResponse) }

/-- The envelope the client produces for `nullJsonResponse`. -/
def nullEnvelope : Envelope :=
  { data := none
    error := none
    status := 200
    response := nullJsonResponse
    headers := [("content-type", "application/json")] }

/-- A 404 JSON response. -/
def notFoundResponse : Response :=
  { status := 404
    headers := [("content-type", "application/json")]
    jsonContent := .str "missing"
    binaryContent := []
    formContent := []
    textContent := "" }

/-- A client whose transport delivers `notFoundResponse`. -/
def cfgNotFound : ClientConfig :=
  { fetch := some (fun _ _ => .ok notFoundResponse) }

/-- A concrete first derive function: contributes `a` and `k`. -/
def deriveF1 : Ctx Nat → Option (List (String × Nat)) :=
  fun _ => some [("a", 1), ("k", 10)]

/-- A concrete second derive function: reads `a` (contributed by the
first) and contributes `b` and a colliding `k`. -/
def deriveF2 : Ctx Nat → Option (List (String × Nat)) :=
  fun c => some [("b", (List.lookup "a" c).getD 0 + 1), ("k", 20)]

/-- A host unit: store has `counter` and `shared`. -/
def hostRuntime : KitoRuntime Nat :=
  { singletonStore := [("counter", 1), ("shared", 10)]
    deriveFunctions := []
    resolveFunctions := [] }

/-- A mounted unit: store has `sessions` and a colliding `shared`. -/
def pluginRuntime : KitoRuntime Nat :=
  { singletonStore := [("sessions", 2), ("shared", 20)]
    deriveFunctions := []
    resolveFunctions := [] }

/-- A schemeless domain whose host is not a recognized local host but
which contains `localhost` as a substring. -/
def evilDomain : String := "localhost.evil.example"

/-- A `GET` first argument whose raw fetch override supplies a body. -/
def getFetchBodyArg : Option CallArg :=
  some (.opts { fetch := some { body := some (.str "x") } })

/-- A file-bearing body: a top-level `Blob` and an array holding one. -/
def fileBody : JSValue :=
  .obj [("file1", .file 7), ("name", .str "n"), ("tags", .arr [.str "x", .file 8])]

/-- A client config whose static headers already carry a content-type. -/
def cfgXmlHeader : ClientConfig :=
  { headers := some (.static [("content-type", "text/xml")]) }

/-- Concrete per-call options with a query having an array value, a null
value, and a scalar. -/
def qOpts : CallOptions :=
  { query := some (.obj
      [("limit", .num 10), ("skip", .null),
        ("tags", .arr [.str "a", .str "b"])]) }

/-! ## Helper lemmas -/

theorem ctxAssign_eq_append {V : Type} (kvs c : List (String × V)) :
    ctxAssign c kvs = kvs.reverse ++ c := by
  induction kvs generalizing c with
  | nil => rfl
  | cons p rest ih =>
    simp only [ctxAssign, List.foldl_cons, List.reverse_cons, List.append_assoc,
      List.singleton_append]
    exact ih (p :: c)

theorem lookup_append {V : Type} (k : String) (a b : List (String × V)) :
    List.lookup k (a ++ b) = (List.lookup k a).or (List.lookup k b) := by
  induction a with
  | nil => simp [List.lookup]
  | cons p rest ih =>
    cases p with
    | mk k' v =>
      simp only [List.cons_append, List.lookup]
      cases h : k == k' <;> simp [h, ih]

/-! ## Claims -/

/-- Claim C1: for every client call (with no post-response hook
configured, which per the spec would replace the parsed data), if the
response status is in `[200,299]` the envelope has `error = null` and
`data` equal to the content-type-appropriate parse of the body
(`application/json` structured decode, `application/octet-stream` raw
binary, `multipart/form-data` key/value map, `text/event-stream` the raw
response, anything else text); for any other status `data = null` and
`error = \x7bstatus, value: parsed body\x7d`. -/
theorem claim_C1
    (dF : String → RequestInitR → Except String Response)
    (domain : String) (config : ClientConfig) (paths : List String)
    (method : String) (b : Option CallArg) (o : Option CallOptions)
    (r : Response)
    (hhook : config.onResponse = none)
    (hfetch : (config.fetch.getD dF)
        (requestUrlOf domain paths (actualCallOptions method b o))
        (preparedInitOf config method (actualCallOptions method b o)
          (callBody method b) ("/" ++ String.intercalate "/" paths)) = .ok r) :
    (createMethodCaller dF domain config paths method b o =
      .ok (if 200 ≤ r.status ∧ r.status ≤ 299 then
            { data := parseResponse r, error := none, status := r.status,
              response := r, headers := r.headers }
          else
            { data := none,
              error := some { status := r.status, value := parseResponse r },
              status := r.status, response := r, headers := r.headers }))
    ∧ (∀ resp : Response, contentTypeOf resp = some "application/json" →
        parseResponse resp = jsonToData resp.jsonContent)
    ∧ (∀ resp : Response, contentTypeOf resp = some "application/octet-stream" →
        parseResponse resp = some (.binary resp.binaryContent))
    ∧ (∀ resp : Response, contentTypeOf resp = some "multipart/form-data" →
        parseResponse resp = some (.form (multipartMap resp.formContent)))
    ∧ (∀ resp : Response, contentTypeOf resp = some "text/event-stream" →
        parseResponse resp = some (.stream resp))
    ∧ (∀ (resp : Response) (ct : String), contentTypeOf resp = some ct →
        ct ≠ "application/json" → ct ≠ "application/octet-stream" →
        ct ≠ "multipart/form-data" → ct ≠ "text/event-stream" →
        parseResponse resp = some (.jsval (.str resp.textContent)))
    ∧ (∀ resp : Response, contentTypeOf resp = none →
        parseResponse resp = some (.jsval (.str resp.textContent))) := by
  refine ⟨?_, ?_, ?_, ?_, ?_, ?_, ?_⟩
  · simp only [createMethodCaller]
    rw [hfetch]
    simp only [makeEnvelope, hhook]
    by_cases hs : 200 ≤ r.status ∧ r.status ≤ 299
    · rw [if_pos hs, if_neg (by omega)]
    · rw [if_neg hs, if_pos (by omega)]
  · intro resp h; simp [parseResponse, h]
  · intro resp h; simp [parseResponse, h]
  · intro resp h; simp [parseResponse, h]
  · intro resp h; simp [parseResponse, h]
  · intro resp ct h h1 h2 h3 h4; simp [parseResponse, h, h1, h2, h3, h4]
  · intro resp h; simp [parseResponse, h]

/-- Witness for claim C1 at a concrete 200 JSON call. -/
theorem claim_C1_witness :
    createMethodCaller failFetch "http://localhost:3000" cfgSampleJson
      ["users"] "get" none none =
      .ok { data := some (.jsval (.obj [("ok", .bool true)])), error := none,
            status := 200, response := sampleJsonResponse,
            headers := [("content-type", "application/json")] } := by
  have h := (claim_C1 failFetch "http://localhost:3000" cfgSampleJson
    ["users"] "get" none none sampleJsonResponse rfl rfl).1
  rw [if_pos (by decide)] at h
  rw [h]
  rfl

/-- Claim C2 counterexample: a 200 response whose JSON body is `null`
yields an envelope in which `data` and `error` are both null, so "exactly
one of `data`/`error` is non-null" fails on a call that does return an
envelope. -/
theorem claim_C2_counterexample :
    createMethodCaller failFetch "http://localhost:3000" cfgNullJson
        [] "get" none none = .ok nullEnvelope
    ∧ nullEnvelope.data = none ∧ nullEnvelope.error = none := by
  exact ⟨rfl, rfl, rfl⟩

/-- Claim C2 (amended): for every client call that returns an envelope,
at most one of `data`/`error` is non-null — `error` is non-null exactly
when the status is outside `[200,299]` (and `data` is then null), while on
success `error` is null and `data` is the parsed body, which can itself be
null (a JSON body `null`) — and the envelope always carries the status,
the raw response, and its headers. -/
theorem claim_C2_amended
    (dF : String → RequestInitR → Except String Response)
    (domain : String) (config : ClientConfig) (paths : List String)
    (method : String) (b : Option CallArg) (o : Option CallOptions)
    (r : Response)
    (hfetch : (config.fetch.getD dF)
        (requestUrlOf domain paths (actualCallOptions method b o))
        (preparedInitOf config method (actualCallOptions method b o)
          (callBody method b) ("/" ++ String.intercalate "/" paths)) = .ok r) :
    createMethodCaller dF domain config paths method b o =
        .ok (makeEnvelope config r)
    ∧ ((makeEnvelope config r).error = none ↔ 200 ≤ r.status ∧ r.status ≤ 299)
    ∧ ((makeEnvelope config r).error ≠ none → (makeEnvelope config r).data = none)
    ∧ (makeEnvelope config r).status = r.status
    ∧ (makeEnvelope config r).response = r
    ∧ (makeEnvelope config r).headers = r.headers
    ∧ (config.onResponse = none → 200 ≤ r.status ∧ r.status ≤ 299 →
        (makeEnvelope config r).data = parseResponse r) := by
  have henv : createMethodCaller dF domain config paths method b o =
      .ok (makeEnvelope config r) := by
    simp only [createMethodCaller]
    rw [hfetch]
  by_cases hs : 300 ≤ r.status ∨ r.status < 200
  · refine ⟨henv, ?_, ?_, ?_, ?_, ?_, ?_⟩ <;>
      first
        | (simp_all [makeEnvelope, if_pos hs]; omega)
        | simp_all [makeEnvelope, if_pos hs]
  · refine ⟨henv, ?_, ?_, ?_, ?_, ?_, ?_⟩ <;>
      first
        | (simp_all [makeEnvelope, if_neg hs]; omega)
        | simp_all [makeEnvelope, if_neg hs]

/-- Witness for claim C2 (amended) at a concrete 404 JSON call. -/
theorem claim_C2_amended_witness :
    createMethodCaller failFetch "https://api.example.com" cfgNotFound
        ["users", "7"] "get" none none = .ok (makeEnvelope cfgNotFound notFoundResponse)
    ∧ (makeEnvelope cfgNotFound notFoundResponse).data = none
    ∧ (makeEnvelope cfgNotFound notFoundResponse).error ≠ none
    ∧ (makeEnvelope cfgNotFound notFoundResponse).status = 404 := by
  have h := claim_C2_amended failFetch "https://api.example.com" cfgNotFound
    ["users", "7"] "get" none none notFoundResponse rfl
  refine ⟨h.1, rfl, ?_, h.2.2.2.1⟩
  have herr := h.2.1
  intro hnone
  have h2 := herr.mp hnone
  rw [show notFoundResponse.status = 404 from rfl] at h2
  omega

/-- Claim C3: the URL passed to the network-call primitive equals
`domain + "/" + join(S, "/")` followed by the query suffix built from
`options.query`, in which array values repeat the key once per element,
plain-object values are JSON-encoded into a single key, scalar values are
stringified, and `null`/`undefined` values are omitted entirely. -/
theorem claim_C3
    (dF : String → RequestInitR → Except String Response)
    (domain : String) (config : ClientConfig) (paths : List String)
    (method : String) (b : Option CallArg) (o : Option CallOptions) :
    (createMethodCaller dF domain config paths method b o =
      match (config.fetch.getD dF)
          (requestUrlOf domain paths (actualCallOptions method b o))
          (preparedInitOf config method (actualCallOptions method b o)
            (callBody method b) ("/" ++ String.intercalate "/" paths)) with
       | .error e => .error e
       | .ok resp => .ok (makeEnvelope config resp))
    ∧ requestUrlOf domain paths (actualCallOptions method b o) =
        domain ++ "/" ++ String.intercalate "/" paths ++
          querySuffix (actualCallOptions method b o)
    ∧ (∀ (opts : CallOptions) (q : JSValue), opts.query = some q →
        jsTruthy q = true →
        querySuffix (some opts) = buildQueryString (entriesOf q))
    ∧ (∀ (k : String) (vs : List JSValue) (rest : List (String × JSValue)),
        queryPairs ((k, .arr vs) :: rest) =
          vs.map (fun v => (k, jsString v)) ++ queryPairs rest)
    ∧ (∀ (k : String) (fs : List (String × JSValue)) (rest : List (String × JSValue)),
        queryPairs ((k, .obj fs) :: rest) =
          (k, jsonStringify (.obj fs)) :: queryPairs rest)
    ∧ (∀ (k s : String) (rest : List (String × JSValue)),
        queryPairs ((k, .str s) :: rest) = (k, s) :: queryPairs rest)
    ∧ (∀ (k : String) (n : Int) (rest : List (String × JSValue)),
        queryPairs ((k, .num n) :: rest) = (k, toString n) :: queryPairs rest)
    ∧ (∀ (k : String) (bv : Bool) (rest : List (String × JSValue)),
        queryPairs ((k, .bool bv) :: rest) =
          (k, jsString (.bool bv)) :: queryPairs rest)
    ∧ (∀ (k : String) (rest : List (String × JSValue)),
        queryPairs ((k, .null) :: rest) = queryPairs rest)
    ∧ (∀ (k : String) (rest : List (String × JSValue)),
        queryPairs ((k, .undefined) :: rest) = queryPairs rest) := by
  refine ⟨rfl, rfl, ?_, ?_, ?_, ?_, ?_, ?_, ?_, ?_⟩
  · intro opts q hq ht
    simp [querySuffix, hq, ht]
  all_goals intros; rfl

/-- Claim C4: the per-request context is built by attaching the store,
copying the decorators, then running each derive function in registration
order (each seeing the accumulated output of all prior derives, merged
immediately), then each resolve function strictly after all derives; a
later registration's value wins a key collision, so with derives `f1`
then `f2` the final context holds `f2`'s value for a colliding key while
`f1`'s output was visible as input to `f2`. -/
theorem claim_C4 {V : Type} (store : V) (decs : List (String × V))
    (f1 f2 : Ctx V → Option (List (String × V)))
    (resolveFns : List (Ctx V → Option (List (String × V))))
    (ctx0 : Ctx V) (o1 o2 : List (String × V))
    (h1 : f1 (ctxAssign (ctxSet ctx0 "store" store) decs) = some o1)
    (h2 : f2 (ctxAssign (ctxAssign (ctxSet ctx0 "store" store) decs) o1) = some o2) :
    wrapHandlerContext store decs [f1, f2] resolveFns ctx0 =
      runMergeStage resolveFns
        (ctxAssign (ctxAssign (ctxAssign (ctxSet ctx0 "store" store) decs) o1) o2)
    ∧ (∀ (k : String) (v : V), lastLookup o1 k = some v →
        List.lookup k (ctxAssign (ctxAssign (ctxSet ctx0 "store" store) decs) o1) =
          some v)
    ∧ (∀ (k : String) (v : V), lastLookup o2 k = some v →
        List.lookup k
            (ctxAssign (ctxAssign (ctxAssign (ctxSet ctx0 "store" store) decs) o1) o2) =
          some v)
    ∧ (∀ (gs fs : List (Ctx V → Option (List (String × V)))) (c : Ctx V),
        runMergeStage (fs ++ gs) c = runMergeStage gs (runMergeStage fs c)) := by
  refine ⟨?_, ?_, ?_, ?_⟩
  · simp only [wrapHandlerContext, runMergeStage, List.foldl_cons, List.foldl_nil,
      h1, h2]
  · intro k v hv
    simp only [lastLookup] at hv
    rw [ctxAssign_eq_append, lookup_append, hv]
    rfl
  · intro k v hv
    simp only [lastLookup] at hv
    rw [ctxAssign_eq_append, lookup_append, hv]
    rfl
  · intro gs fs c
    simp [runMergeStage, List.foldl_append]

/-- Witness for claim C4: concrete derives `deriveF1` then `deriveF2`;
`deriveF2` read `a = 1` contributed by `deriveF1` (hence `b = 2`), and its
`k = 20` overwrote `deriveF1`'s `k = 10`. -/
theorem claim_C4_witness :
    List.lookup "k" (wrapHandlerContext 0 [("d", 5)] [deriveF1, deriveF2] [] []) =
        some 20
    ∧ List.lookup "b" (wrapHandlerContext 0 [("d", 5)] [deriveF1, deriveF2] [] []) =
        some 2
    ∧ List.lookup "a" (wrapHandlerContext 0 [("d", 5)] [deriveF1, deriveF2] [] []) =
        some 1
    ∧ List.lookup "store" (wrapHandlerContext 0 [("d", 5)] [deriveF1, deriveF2] [] []) =
        some 0 := by
  have h := claim_C4 (V := Nat) 0 [("d", 5)] deriveF1 deriveF2 [] []
    [("a", 1), ("k", 10)] [("b", 2), ("k", 20)] rfl rfl
  rw [h.1]
  exact ⟨rfl, rfl, rfl, rfl⟩

/-- Claim C5 counterexample: mounting `pluginRuntime` (store key `shared =
20`) into `hostRuntime` (store key `shared = 10`) leaves the mounted
unit's value, not the host's, so "the host wins on key collision" fails. -/
theorem claim_C5_counterexample :
    List.lookup "shared" (hostRuntime.use pluginRuntime).singletonStore = some 20
    ∧ List.lookup "shared" (hostRuntime.use pluginRuntime).singletonStore ≠
        some 10 := by
  exact ⟨rfl, by decide⟩

/-- Claim C5 (amended): mounting one unit into another merges the stores
as a shallow key union in which the mounted unit's keys are added and the
mounted unit (not the host) wins on key collision, and concatenates the
derive and resolve lists with the mounted unit's functions appended after
the host's. -/
theorem claim_C5_amended {V : Type} (host plugin : KitoRuntime V) :
    (host.use plugin).singletonStore =
        ctxAssign host.singletonStore plugin.singletonStore
    ∧ (∀ (k : String) (v : V), lastLookup plugin.singletonStore k = some v →
        List.lookup k (host.use plugin).singletonStore = some v)
    ∧ (∀ k : String, lastLookup plugin.singletonStore k = none →
        List.lookup k (host.use plugin).singletonStore =
          List.lookup k host.singletonStore)
    ∧ (host.use plugin).deriveFunctions =
        host.deriveFunctions ++ plugin.deriveFunctions
    ∧ (host.use plugin).resolveFunctions =
        host.resolveFunctions ++ plugin.resolveFunctions := by
  refine ⟨rfl, ?_, ?_, rfl, rfl⟩
  · intro k v hv
    simp only [lastLookup] at hv
    show List.lookup k (ctxAssign host.singletonStore plugin.singletonStore) = some v
    rw [ctxAssign_eq_append, lookup_append, hv]
    rfl
  · intro k hv
    simp only [lastLookup] at hv
    show List.lookup k (ctxAssign host.singletonStore plugin.singletonStore) = _
    rw [ctxAssign_eq_append, lookup_append, hv]
    rfl

/-- Witness for claim C5 (amended) on the concrete host/plugin pair: the
merged store exposes both `counter` and `sessions`, and the function
lists concatenate. -/
theorem claim_C5_amended_witness :
    List.lookup "sessions" (hostRuntime.use pluginRuntime).singletonStore = some 2
    ∧ List.lookup "counter" (hostRuntime.use pluginRuntime).singletonStore = some 1
    ∧ (hostRuntime.use pluginRuntime).deriveFunctions =
        hostRuntime.deriveFunctions ++ pluginRuntime.deriveFunctions := by
  have h := claim_C5_amended hostRuntime pluginRuntime
  refine ⟨h.2.1 "sessions" 2 rfl, ?_, h.2.2.2.1⟩
  rw [h.2.2.1 "counter" rfl]
  rfl

/-- Claim C6 counterexample: the source tests locality with a substring
check (`domain.includes(host)`), so the schemeless domain
`localhost.evil.example` — whose host is not one of the recognized local
hosts — still gets `http://`, while the claim ("exactly when the host is
one of the recognized local hosts") demands `https://`. -/
theorem claim_C6_counterexample :
    normalizeDomain evilDomain = "http://localhost.evil.example"
    ∧ specClaimNormalize evilDomain = "https://localhost.evil.example"
    ∧ (specHostOf evilDomain ∈ LOCAL_HOSTS → False)
    ∧ normalizeDomain evilDomain ≠ specClaimNormalize evilDomain := by
  exact ⟨rfl, rfl, by decide, by decide⟩

/-- Claim C6 (amended): for a domain string with no scheme, `http://` is
prepended exactly when the string contains one of the recognized local
hosts (`localhost`, `127.0.0.1`, `0.0.0.0`) as a substring (not only when
the host itself is one of them), and `https://` otherwise; a single
trailing `/` is then stripped. -/
theorem claim_C6_amended (d : String) (hnos : strIncludes d "://" = false) :
    ((∃ h ∈ LOCAL_HOSTS, strIncludes d h = true) →
      normalizeDomain d = stripOneTrailingSlash ("http://" ++ d))
    ∧ ((∀ h ∈ LOCAL_HOSTS, strIncludes d h = false) →
      normalizeDomain d = stripOneTrailingSlash ("https://" ++ d)) := by
  constructor
  · rintro ⟨h, hmem, hinc⟩
    simp only [normalizeDomain, hnos, Bool.not_false, if_true]
    rw [if_pos (List.any_eq_true.mpr ⟨h, hmem, hinc⟩)]
  · intro hall
    simp only [normalizeDomain, hnos, Bool.not_false, if_true]
    rw [if_neg]
    intro hc
    obtain ⟨h, hmem, hinc⟩ := List.any_eq_true.mp hc
    rw [hall h hmem] at hinc
    cases hinc

/-- Witness for claim C6 (amended) on the claim's own examples, plus the
trailing-slash strip. -/
theorem claim_C6_amended_witness :
    normalizeDomain "localhost:3000" = "http://localhost:3000"
    ∧ normalizeDomain "api.example.com" = "https://api.example.com"
    ∧ normalizeDomain "api.example.com/" = "https://api.example.com" := by
  have h1 := (claim_C6_amended "localhost:3000" rfl).1 ⟨"localhost", by decide, rfl⟩
  have h2 := (claim_C6_amended "api.example.com" rfl).2 (by decide)
  have h3 := (claim_C6_amended "api.example.com/" rfl).2 (by decide)
  refine ⟨?_, ?_, ?_⟩
  · rw [h1]; rfl
  · rw [h2]; rfl
  · rw [h3]; rfl

/-- Claim C7: a request body with a binary-attachment leaf at the top
level or inside a (top-level) array is encoded as a multipart form — each
key or array element becoming one entry — and the body-encoding step sets
no content-type header (the headers of the issued init are exactly those
of the pre-encoding init). -/
theorem claim_C7 (config : ClientConfig) (method : String)
    (o : Option CallOptions) (b : JSValue) (path : String)
    (hm : isGetOrHead method = false)
    (hfiles : hasFiles b = true)
    (hhook : config.onRequest = none) :
    (preparedInitOf config method (actualCallOptions method (some (.value b)) o)
        (callBody method (some (.value b))) path =
      { baseInitOf config method o with
          body := some (.formData (formEntriesOf b)) })
    ∧ (preparedInitOf config method (actualCallOptions method (some (.value b)) o)
        (callBody method (some (.value b))) path).headers =
        (baseInitOf config method o).headers
    ∧ (∀ (k : String) (vs : List JSValue) (rest : List (String × JSValue)),
        formPairs ((k, .arr vs) :: rest) =
          vs.map (fun e => (k, formEntryOf e)) ++ formPairs rest)
    ∧ (∀ (k : String) (t : Nat) (rest : List (String × JSValue)),
        formPairs ((k, .file t) :: rest) = (k, .file t) :: formPairs rest)
    ∧ (∀ (k s : String) (rest : List (String × JSValue)),
        formPairs ((k, .str s) :: rest) = (k, .str s) :: formPairs rest) := by
  have hopts : actualCallOptions method (some (.value b)) o = o := by
    simp [actualCallOptions, hm]
  have hbody : callBody method (some (.value b)) = some b := by
    simp [callBody, hm, asBodyArg]
  have hmain : preparedInitOf config method
      (actualCallOptions method (some (.value b)) o)
      (callBody method (some (.value b))) path =
      { baseInitOf config method o with
          body := some (.formData (formEntriesOf b)) } := by
    rw [hopts, hbody]
    cases b with
    | null => simp [hasFiles] at hfiles
    | undefined => simp [hasFiles] at hfiles
    | bool bb => simp [hasFiles] at hfiles
    | num n => simp [hasFiles] at hfiles
    | str s => simp [hasFiles] at hfiles
    | file t => simp [hasFiles] at hfiles
    | arr es =>
        simp [preparedInitOf, hhook, bodiedInitOf, hm, encodeBody, hfiles]
    | obj fs =>
        simp [preparedInitOf, hhook, bodiedInitOf, hm, encodeBody, hfiles]
  refine ⟨hmain, by rw [hmain], ?_, ?_, ?_⟩
  all_goals intros; rfl

/-- Witness for claim C7 at a concrete file-bearing POST body. -/
theorem claim_C7_witness :
    (preparedInitOf {} "post" (actualCallOptions "post" (some (.value fileBody)) none)
        (callBody "post" (some (.value fileBody))) "/upload").body =
      some (.formData
        [("file1", .file 7), ("name", .str "n"), ("tags", .str "x"),
          ("tags", .file 8)])
    ∧ (preparedInitOf {} "post" (actualCallOptions "post" (some (.value fileBody)) none)
        (callBody "post" (some (.value fileBody))) "/upload").headers = [] := by
  have h := claim_C7 {} "post" none fileBody "/upload" rfl rfl rfl
  rw [h.1]
  exact ⟨rfl, rfl⟩

/-- Claim C8 counterexample: a `GET` call whose first positional argument
carries a raw fetch override with a body (`{fetch: {body: "x"}}`) issues a
request whose init does carry that body, so "the issued request carries
no body regardless of what is passed as the first argument" fails. -/
theorem claim_C8_counterexample :
    (preparedInitOf {} "get" (actualCallOptions "get" getFetchBodyArg none)
        (callBody "get" getFetchBodyArg) "/").body = some (.str "x")
    ∧ ((preparedInitOf {} "get" (actualCallOptions "get" getFetchBodyArg none)
        (callBody "get" getFetchBodyArg) "/").body = none → False) := by
  exact ⟨rfl, fun hc => Option.noConfusion hc⟩

/-- Claim C8 (amended): for every `GET`/`HEAD` call, the first positional
argument is interpreted as the options object and the body-encoding step
never runs (the issued init is exactly the pre-encoding init), so the
request carries no body and no body content-type header unless one is
explicitly supplied through the raw fetch override (or the pre-request
hook); for all other verbs the first argument is the body and options are
the separate second argument. -/
theorem claim_C8_amended (config : ClientConfig) (method : String)
    (b : Option CallArg) (o : Option CallOptions) (path : String)
    (hm : isGetOrHead method = true)
    (hhook : config.onRequest = none)
    (hoverride : ((asOptionsArg b).bind (fun x => x.fetch)).bind
        (fun f => f.body) = none) :
    (preparedInitOf config method (actualCallOptions method b o)
        (callBody method b) path).body = none
    ∧ preparedInitOf config method (actualCallOptions method b o)
        (callBody method b) path =
        baseInitOf config method (actualCallOptions method b o)
    ∧ actualCallOptions method b o = asOptionsArg b
    ∧ callBody method b = none
    ∧ (∀ (m : String) (b2 : Option CallArg) (o2 : Option CallOptions),
        isGetOrHead m = false →
        actualCallOptions m b2 o2 = o2 ∧ callBody m b2 = asBodyArg b2) := by
  have hopts : actualCallOptions method b o = asOptionsArg b := by
    simp [actualCallOptions, hm]
  have hbody : callBody method b = none := by simp [callBody, hm]
  have hstruct : preparedInitOf config method (actualCallOptions method b o)
      (callBody method b) path =
      baseInitOf config method (actualCallOptions method b o) := by
    rw [hbody]
    simp [preparedInitOf, bodiedInitOf, hhook]
  refine ⟨?_, hstruct, hopts, hbody, ?_⟩
  · rw [hstruct, hopts]
    simp only [baseInitOf]
    cases hfo : (asOptionsArg b).bind (fun x => x.fetch) with
    | none => rfl
    | some ov =>
        rw [hfo] at hoverride
        simp only [Option.bind] at hoverride
        simp [applyFetchInit, hoverride]
  · intro m b2 o2 hm2
    constructor <;> simp [actualCallOptions, callBody, hm2]

/-- Witness for claim C8 (amended) at a concrete `GET` with query-only
options. -/
theorem claim_C8_amended_witness :
    (preparedInitOf {} "get"
        (actualCallOptions "get" (some (.opts { query := some (.obj [("limit", .num 10)]) })) none)
        (callBody "get" (some (.opts { query := some (.obj [("limit", .num 10)]) })))
        "/users").body = none
    ∧ callBody "get" (some (.opts { query := some (.obj [("limit", .num 10)]) })) =
        none := by
  have h := claim_C8_amended {} "get"
    (some (.opts { query := some (.obj [("limit", .num 10)]) })) none "/users"
    rfl rfl rfl
  exact ⟨h.1, h.2.2.2.1⟩

/-- Claim C9: when the network-call primitive itself rejects, the client
call rejects with that same rejection; no envelope is produced and the
rejection is never converted into an error envelope. -/
theorem claim_C9
    (dF : String → RequestInitR → Except String Response)
    (domain : String) (config : ClientConfig) (paths : List String)
    (method : String) (b : Option CallArg) (o : Option CallOptions)
    (e : String)
    (hf : ∀ (u : String) (i : RequestInitR), (config.fetch.getD dF) u i = .error e) :
    createMethodCaller dF domain config paths method b o = .error e := by
  simp only [createMethodCaller]
  rw [hf]

/-- Witness for claim C9 with an always-rejecting default primitive. -/
theorem claim_C9_witness :
    createMethodCaller failFetch "https://api.example.com" {} ["users"] "post"
        (some (.value (.obj [("n", .num 1)]))) none = .error "ECONNREFUSED" :=
  claim_C9 failFetch "https://api.example.com" {} ["users"] "post"
    (some (.value (.obj [("n", .num 1)]))) none "ECONNREFUSED" (fun _ _ => rfl)

/-- Claim C10: for body-carrying verbs, a non-null non-binary structured
body overwrites the merged `content-type` header with `application/json`
(so a content-type supplied via config or per-call headers is silently
replaced), and a non-object body forces `content-type: text/plain`;
stated over arbitrary config and per-call headers, with no pre-request
hook. -/
theorem claim_C10 (config : ClientConfig) (method : String)
    (o : Option CallOptions) (b : JSValue) (path : String)
    (hm : isGetOrHead method = false)
    (hhook : config.onRequest = none) :
    (hasFiles b = false → typeofIsObject b = true → ¬b = .null →
      List.lookup "content-type"
          (preparedInitOf config method o (some b) path).headers =
        some "application/json"
      ∧ (preparedInitOf config method o (some b) path).body =
          some (.str (jsonStringify b)))
    ∧ (typeofIsObject b = false → ¬b = .undefined →
      List.lookup "content-type"
          (preparedInitOf config method o (some b) path).headers =
        some "text/plain"
      ∧ (preparedInitOf config method o (some b) path).body =
          some (.str (jsString b))) := by
  constructor
  · intro hfiles hobj hnull
    cases b with
    | null => exact absurd rfl hnull
    | undefined => simp [typeofIsObject] at hobj
    | bool bb => simp [typeofIsObject] at hobj
    | num n => simp [typeofIsObject] at hobj
    | str s => simp [typeofIsObject] at hobj
    | arr es =>
        have hred : preparedInitOf config method o (some (.arr es)) path =
            encodeBody (baseInitOf config method o) (.arr es) := by
          simp [preparedInitOf, hhook, bodiedInitOf, hm]
        rw [hred]
        have henc : encodeBody (baseInitOf config method o) (.arr es) =
            { baseInitOf config method o with
                headers := recAssign (baseInitOf config method o).headers
                  [("content-type", "application/json")]
                body := some (.str (jsonStringify (.arr es))) } := by
          simp [encodeBody, hfiles, typeofIsObject]
        rw [henc]
        exact ⟨rfl, rfl⟩
    | obj fs =>
        have hred : preparedInitOf config method o (some (.obj fs)) path =
            encodeBody (baseInitOf config method o) (.obj fs) := by
          simp [preparedInitOf, hhook, bodiedInitOf, hm]
        rw [hred]
        have henc : encodeBody (baseInitOf config method o) (.obj fs) =
            { baseInitOf config method o with
                headers := recAssign (baseInitOf config method o).headers
                  [("content-type", "application/json")]
                body := some (.str (jsonStringify (.obj fs))) } := by
          simp [encodeBody, hfiles, typeofIsObject]
        rw [henc]
        exact ⟨rfl, rfl⟩
    | file t =>
        have hred : preparedInitOf config method o (some (.file t)) path =
            encodeBody (baseInitOf config method o) (.file t) := by
          simp [preparedInitOf, hhook, bodiedInitOf, hm]
        rw [hred]
        exact ⟨rfl, rfl⟩
  · intro hobj hundef
    cases b with
    | null => simp [typeofIsObject] at hobj
    | arr es => simp [typeofIsObject] at hobj
    | obj fs => simp [typeofIsObject] at hobj
    | file t => simp [typeofIsObject] at hobj
    | undefined => exact absurd rfl hundef
    | bool bb =>
        have hred : preparedInitOf config method o (some (.bool bb)) path =
            encodeBody (baseInitOf config method o) (.bool bb) := by
          simp [preparedInitOf, hhook, bodiedInitOf, hm]
        rw [hred]
        exact ⟨rfl, rfl⟩
    | num n =>
        have hred : preparedInitOf config method o (some (.num n)) path =
            encodeBody (baseInitOf config method o) (.num n) := by
          simp [preparedInitOf, hhook, bodiedInitOf, hm]
        rw [hred]
        exact ⟨rfl, rfl⟩
    | str s =>
        have hred : preparedInitOf config method o (some (.str s)) path =
            encodeBody (baseInitOf config method o) (.str s) := by
          simp [preparedInitOf, hhook, bodiedInitOf, hm]
        rw [hred]
        exact ⟨rfl, rfl⟩

/-- Witness for claim C10: a config that already supplies
`content-type: text/xml` is silently overwritten to `application/json`
for an object body, and to `text/plain` for a scalar body. -/
theorem claim_C10_witness :
    List.lookup "content-type"
        (preparedInitOf cfgXmlHeader "post" none
          (some (.obj [("name", .str "John")])) "/users").headers =
      some "application/json"
    ∧ (preparedInitOf cfgXmlHeader "post" none
        (some (.obj [("name", .str "John")])) "/users").body =
        some (.str (jsonStringify (.obj [("name", .str "John")])))
    ∧ List.lookup "content-type"
        (preparedInitOf cfgXmlHeader "post" none (some (.num 5)) "/users").headers =
      some "text/plain" := by
  have h1 := (claim_C10 cfgXmlHeader "post" none (.obj [("name", .str "John")])
    "/users" rfl rfl).1 rfl rfl (fun hc => JSValue.noConfusion hc)
  have h2 := (claim_C10 cfgXmlHeader "post" none (.num 5) "/users" rfl rfl).2
    rfl (fun hc => JSValue.noConfusion hc)
  exact ⟨h1.1, h1.2, h2.1⟩

/-- Witness for claim C3 at a concrete URL with an array, a null and a
scalar query value. -/
theorem claim_C3_witness :
    requestUrlOf "http://localhost:3000" ["users", "7"] (some qOpts) =
      "http://localhost:3000/users/7?limit=10&tags=a&tags=b" := by
  have h := claim_C3 failFetch "http://localhost:3000" {} ["users", "7"]
    "post" none (some qOpts)
  have h3 : actualCallOptions "post" none (some qOpts) = some qOpts := rfl
  have h2 := h.2.1
  rw [h3] at h2
  rw [h2]
  rfl

end Kitopia
